import Mathlib

/-!
Verification of the per-protein interval-resolution core of Dotate
(src/dotate_core/core.py).

The embedding mirrors the pandas pipeline.  A pandas float cell is `PF :=
Option ℚ`, `none` standing for NaN; the comparison, arithmetic, `max` and
`min` helpers below reproduce the Python/NumPy semantics on such values
(every comparison with NaN is false, arithmetic propagates NaN, and
`max(a, b)` is `b` exactly when `b > a`, as CPython's two-argument `max`
computes it).  Raw input cells (before `pd.to_numeric(errors='coerce')`)
are `Cell`: a number, NaN, or a non-numeric string; coercion sends
non-numeric strings to NaN.

`Series.round(3)` is NumPy's round-half-to-even at three decimals, embedded
exactly on ℚ by `roundTo3`.

`sort_values` is embedded as a stable insertion sort on the relevant key
with NaN keys placed last (pandas' `na_position='last'`).  NumPy's default
`kind='quicksort'` introsort runs its insertion-sort base case — which is
this very algorithm, and stable — on partitions of at most 16 elements, so
the embedding is exact for the groups on which it is used in the theorems
below (all sort keys distinct, or small groups); the documented pandas
default gives no stability guarantee beyond that, which matters for claim
C3 and is recorded there.
-/

namespace Dotate

/-- A pandas float value: `none` is NaN. -/
abbrev PF := Option ℚ

/-- Float `<` with NaN semantics: any comparison against NaN is false. -/
def plt : PF → PF → Bool
  | some a, some b => a < b
  | _, _ => false

/-- Float `>` with NaN semantics. -/
def pgt (a b : PF) : Bool := plt b a

/-- Float `≤` with NaN semantics. -/
def ple : PF → PF → Bool
  | some a, some b => a ≤ b
  | _, _ => false

/-- Float `≥` with NaN semantics. -/
def pge (a b : PF) : Bool := ple b a

/-- Float addition; NaN propagates. -/
def padd : PF → PF → PF
  | some a, some b => some (a + b)
  | _, _ => none

/-- Float subtraction; NaN propagates. -/
def psub : PF → PF → PF
  | some a, some b => some (a - b)
  | _, _ => none

/-- Float division; NaN propagates.  Division by zero is mapped to NaN
(the pipeline only divides under a `> 0` guard on the divisor, or by a
candidate length that the theorems keep nonzero, so the IEEE infinities
are never exercised). -/
def pdiv : PF → PF → PF
  | some a, some b => if b = 0 then none else some (a / b)
  | _, _ => none

/-- CPython `max(a, b)`: `b` when `b > a`, else `a` (so `max(x, nan) = x`
and `max(nan, x) = nan`). -/
def pmax (a b : PF) : PF := if plt a b then b else a

/-- CPython `min(a, b)`: `b` when `b < a`, else `a`. -/
def pmin (a b : PF) : PF := if plt b a then b else a

/-- A raw tabular cell as read from the hit table: a number, a NaN, or a
non-numeric string. -/
inductive Cell where
  | num (q : ℚ)
  | nan
  | str (s : String)
deriving DecidableEq

/-- `pd.to_numeric(errors='coerce')` on one cell: numbers survive,
everything non-numeric becomes NaN. -/
def coerceCell : Cell → Cell
  | .num q => .num q
  | _ => .nan

/-- The float value of a (coerced) cell. -/
def cellVal : Cell → PF
  | .num q => some q
  | _ => none

/-- A float value written back into a cell. -/
def pfToCell : PF → Cell
  | some q => .num q
  | none => .nan

/-- One raw hit record of the grouped input table (`df_gene`): the columns
`core.py` consumes, plus `rest` standing for the columns the pipeline
never touches. -/
structure RawRow where
  target_name : String
  query_name : String
  rest : String
  tlen : Cell
  qlen : Cell
  i_Evalue : Cell
  from_hmm : Cell
  to_hmm : Cell
  from_env : Cell
  to_env : Cell
deriving DecidableEq

/-- A raw row after `clean_dataframe` has written into the input frame:
the seven numeric columns coerced in place and the derived `hmm_cov`
column appended (core.py lines 38-40). -/
structure MutRow extends RawRow where
  hmm_cov : Cell
deriving DecidableEq

/-- One row of the cleaned frame (`clean_dataframe`'s selected columns,
core.py line 44), later also used for accepted and gap rows.  The
`domain_cov` column does not exist before acceptance; it is carried as a
field here and only ever read after `filter_accepted_rows` has set it
(accepted rows, line 153) or `add_gap_row` has (gap rows). -/
structure DRow where
  target_name : String
  tlen : PF
  query_name : String
  from_env : PF
  to_env : PF
  i_Evalue : PF
  hmm_cov : PF
  domain_cov : PF
deriving DecidableEq

/-- Stable insertion into a list sorted by the strict comparison `lt`:
`x` goes before the first element it is strictly below, hence after every
element tied with it. -/
def insertBy {α : Type} (lt : α → α → Bool) (x : α) : List α → List α
  | [] => [x]
  | y :: ys => if lt x y then x :: y :: ys else y :: insertBy lt x ys

/-- Stable insertion sort by the strict comparison `lt` (see the header
note on `sort_values`). -/
def sortBy {α : Type} (lt : α → α → Bool) (l : List α) : List α :=
  l.foldl (fun acc x => insertBy lt x acc) []

/-- Strict order on sort keys with NaN placed last
(`na_position='last'`). -/
def keyLt (a b : PF) : Bool :=
  match a, b with
  | some x, some y => x < y
  | some _, none => true
  | none, _ => false

/-- The row-level predicate of `clean_dataframe`'s filter (core.py line
41): `i_Evalue < i_eN` and `hmm_cov > hmmN`, on the coerced row. -/
def cleanPred (hmmN i_eN : ℚ) (r : MutRow) : Bool :=
  plt (cellVal r.i_Evalue) (some i_eN) && pgt (cellVal r.hmm_cov) (some hmmN)

/-- The in-place effect of core.py lines 38-40 on one input row: coerce
the seven numeric columns and append `hmm_cov = (to_hmm - from_hmm + 1) /
qlen`. -/
def coerceRow (r : RawRow) : MutRow :=
  { target_name := r.target_name
    query_name := r.query_name
    rest := r.rest
    tlen := coerceCell r.tlen
    qlen := coerceCell r.qlen
    i_Evalue := coerceCell r.i_Evalue
    from_hmm := coerceCell r.from_hmm
    to_hmm := coerceCell r.to_hmm
    from_env := coerceCell r.from_env
    to_env := coerceCell r.to_env
    hmm_cov := pfToCell (pdiv (padd (psub (cellVal (coerceCell r.to_hmm))
                                          (cellVal (coerceCell r.from_hmm)))
                                    (some 1))
                              (cellVal (coerceCell r.qlen))) }

/-- Column selection of core.py line 44 on one filtered row. -/
def selectRow (r : MutRow) : DRow :=
  { target_name := r.target_name
    tlen := cellVal r.tlen
    query_name := r.query_name
    from_env := cellVal r.from_env
    to_env := cellVal r.to_env
    i_Evalue := cellVal r.i_Evalue
    hmm_cov := cellVal r.hmm_cov
    domain_cov := none }

/-- `clean_dataframe` (core.py lines 26-47).  Returns the pair
(the input frame as the function leaves it — it writes the coercion and
the `hmm_cov` column into its argument —, the filtered frame sorted
ascending by `i_Evalue`). -/
def clean_dataframe (df : List RawRow) (hmmN i_eN : ℚ) :
    List MutRow × List DRow :=
  let mutated := df.map coerceRow
  let filtered := mutated.filter (cleanPred hmmN i_eN)
  (mutated, sortBy (fun a b => keyLt a.i_Evalue b.i_Evalue) (filtered.map selectRow))

/-- `calculate_overlap_percentage` (core.py lines 49-73): the overlap of
the two spans relative to `test_row`'s own current span. -/
def calculate_overlap_percentage (test_row accepted_row : DRow) : ℚ :=
  let start1 := test_row.from_env
  let end1 := test_row.to_env
  let start2 := accepted_row.from_env
  let end2 := accepted_row.to_env
  let overlap_start := pmax start1 start2
  let overlap_end := pmin end1 end2
  let overlap_length := pmax (some 0) (padd (psub overlap_end overlap_start) (some 1))
  let length1 := padd (psub end1 start1) (some 1)
  if pgt length1 (some 0) then (pdiv overlap_length length1).getD 0 else 0

/-- One pass of the trimming loop body (core.py lines 141-150) against a
single accepted row: trim only when the overlap with the *current*
candidate is positive; clamp the end to `acc.start - 1` when the
candidate starts first, else clamp the start to `acc.end + 1`. -/
def trim_against (test_row accepted_row : DRow) : DRow :=
  if calculate_overlap_percentage test_row accepted_row > 0 then
    if plt test_row.from_env accepted_row.from_env then
      { test_row with to_env := psub accepted_row.from_env (some 1) }
    else
      { test_row with from_env := padd accepted_row.to_env (some 1) }
  else test_row

/-- The row the acceptance loop appends for an accepted candidate
(core.py lines 132-133 and 141-154): the candidate trimmed sequentially
against every accepted row, with `domain_cov` the final length over the
`initial_length` stored before any trim. -/
def trimmed_row (accepted_rows : List DRow) (test_row : DRow) : DRow :=
  let initial_length := padd (psub test_row.to_env test_row.from_env) (some 1)
  let trimmed := accepted_rows.foldl trim_against test_row
  let dc := pdiv (padd (psub trimmed.to_env trimmed.from_env) (some 1)) initial_length
  { trimmed with domain_cov := dc }

/-- The body of the acceptance loop (core.py lines 131-154) for one
candidate: reject it when any accepted row's overlap reaches
`1 - coverage`; otherwise trim it sequentially against every accepted
row, record `domain_cov` against the pre-trim length, and append it. -/
def accept_step (coverage : ℚ) (accepted_rows : List DRow) (test_row : DRow) :
    List DRow :=
  if (accepted_rows.map (calculate_overlap_percentage test_row)).all
      (fun overlap => overlap < 1 - coverage) then
    accepted_rows ++ [trimmed_row accepted_rows test_row]
  else accepted_rows

/-- The full acceptance loop of `filter_accepted_rows` (core.py lines
129-154). -/
def accepted_of (df : List DRow) (coverage : ℚ) : List DRow :=
  df.foldl (accept_step coverage) []

/-- Sort rows by `from_env` (`sort_values(by='from_env')`). -/
def sort_by_from_env (l : List DRow) : List DRow :=
  sortBy (fun a b => keyLt a.from_env b.from_env) l

/-- The gap-row constructor of `add_gap_rows` (core.py lines 90-100):
label `UNN`, `tlen` 0, and the value 0 — not NaN — in `i_Evalue`,
`hmm_cov` and `domain_cov`. -/
def add_gap_row (df0 : DRow) (s e : PF) : DRow :=
  { target_name := df0.target_name
    tlen := some 0
    query_name := "UNN"
    from_env := s
    to_env := e
    i_Evalue := some 0
    hmm_cov := some 0
    domain_cov := some 0 }

/-- The interior-gap loop of `add_gap_rows` (core.py lines 106-109),
walking consecutive pairs of the sorted frame. -/
def interior_gaps (first : DRow) (amino : ℚ) : DRow → List DRow → List DRow
  | _, [] => []
  | prev, next :: rest =>
    (if pge (psub (psub next.from_env prev.to_env) (some 1)) (some amino) then
        [add_gap_row first (padd prev.to_env (some 1)) (psub next.from_env (some 1))]
      else []) ++ interior_gaps first amino next rest

/-- `add_gap_rows` (core.py lines 75-115).  The empty case is unreachable
in the program (`accepted_rows` is never empty when it is called; pandas
would raise on `iloc[0]` there) and returns `[]`. -/
def add_gap_rows (df : List DRow) (amino : ℚ) : List DRow :=
  match sort_by_from_env df with
  | [] => []
  | r0 :: rs =>
    let lst := (r0 :: rs).getLast (List.cons_ne_nil r0 rs)
    let new_rows :=
      (if pgt r0.from_env (some amino) then
          [add_gap_row r0 (some 0) (psub r0.from_env (some 1))]
        else []) ++
      interior_gaps r0 amino r0 rs ++
      (if pge (psub lst.tlen lst.to_env) (some amino) then
          [add_gap_row r0 (padd lst.to_env (some 1)) lst.tlen]
        else [])
    sort_by_from_env ((r0 :: rs) ++ new_rows)

/-- One row of `filter_accepted_rows`' result after `tlen` is dropped
(core.py line 157). -/
structure RRow where
  target_name : String
  query_name : String
  from_env : PF
  to_env : PF
  i_Evalue : PF
  hmm_cov : PF
  domain_cov : PF
deriving DecidableEq

/-- Dropping the `tlen` column (core.py line 157). -/
def dropTlen (r : DRow) : RRow :=
  { target_name := r.target_name
    query_name := r.query_name
    from_env := r.from_env
    to_env := r.to_env
    i_Evalue := r.i_Evalue
    hmm_cov := r.hmm_cov
    domain_cov := r.domain_cov }

/-- NumPy round-half-to-even of a rational to an integer. -/
def rhe (q : ℚ) : ℤ :=
  if q - ⌊q⌋ < 1 / 2 then ⌊q⌋
  else if 1 / 2 < q - ⌊q⌋ then ⌊q⌋ + 1
  else if ⌊q⌋ % 2 = 0 then ⌊q⌋ else ⌊q⌋ + 1

/-- `round(x, 3)`: round-half-to-even at three decimal places. -/
def roundTo3 (q : ℚ) : ℚ := (rhe (1000 * q) : ℚ) / 1000

/-- `Series.round(3)` on one cell; NaN stays NaN. -/
def roundPF : PF → PF
  | some q => some (roundTo3 q)
  | none => none

/-- The rounding of core.py lines 158-159 on one result row. -/
def roundRow (r : RRow) : RRow :=
  { r with hmm_cov := roundPF r.hmm_cov, domain_cov := roundPF r.domain_cov }

/-- The result frame of core.py line 157, before the rounding of lines
158-159: gaps added and `tlen` dropped. -/
def filter_accepted_preround (df : List DRow) (coverage amino : ℚ) : List RRow :=
  (add_gap_rows (accepted_of df coverage) amino).map dropTlen

/-- `filter_accepted_rows` (core.py lines 117-161). -/
def filter_accepted_rows (df : List DRow) (coverage amino : ℚ) : List RRow :=
  (filter_accepted_preround df coverage amino).map roundRow

/-- One row of `process_gene`'s result (`query_name` renamed to
`domain`, core.py line 193; the degenerate row of lines 182-190 has the
same fields). -/
structure OutRow where
  target_name : String
  domain : String
  from_env : PF
  to_env : PF
  i_Evalue : PF
  hmm_cov : PF
  domain_cov : PF
deriving DecidableEq

/-- The `query_name` → `domain` rename (core.py line 193). -/
def renameRow (r : RRow) : OutRow :=
  { target_name := r.target_name
    domain := r.query_name
    from_env := r.from_env
    to_env := r.to_env
    i_Evalue := r.i_Evalue
    hmm_cov := r.hmm_cov
    domain_cov := r.domain_cov }

/-- `process_gene` (core.py lines 163-193).  The first component is the
input frame as the call leaves it (`clean_dataframe` writes into its
argument; nothing later touches it), the second the returned annotation.
The degenerate branch reads `tlen` from the first row of the (already
coerced) input; on an empty group pandas would raise, and the embedding
returns an empty annotation there. -/
def process_gene (df_gene : List RawRow)
    (hmm_cov_co iE_score_co domain_cov_co unanotated_co : ℚ) :
    List MutRow × List OutRow :=
  let cleaned := clean_dataframe df_gene hmm_cov_co iE_score_co
  if cleaned.2.isEmpty then
    match cleaned.1 with
    | [] => (cleaned.1, [])
    | m0 :: _ =>
      (cleaned.1,
        [{ target_name := m0.target_name
           domain := "UNN"
           from_env := some 0
           to_env := cellVal m0.tlen
           i_Evalue := none
           hmm_cov := none
           domain_cov := none }])
  else
    (cleaned.1,
      (filter_accepted_rows cleaned.2 domain_cov_co unanotated_co).map renameRow)

end Dotate

namespace Dotate

/-! ## Helper lemmas on the float embedding -/

lemma pmax_some (x y : ℚ) : pmax (some x) (some y) = some (max x y) := by
  by_cases h : x < y
  · simp [pmax, plt, h, max_eq_right h.le]
  · simp [pmax, plt, h, max_eq_left (le_of_not_lt h)]

lemma pmin_some (x y : ℚ) : pmin (some x) (some y) = some (min x y) := by
  by_cases h : y < x
  · simp [pmin, plt, h, min_eq_right h.le]
  · simp [pmin, plt, h, min_eq_left (le_of_not_lt h)]

/-- The overlap fraction exactly as the spec writes it for claim C1:
`max(0, min(cand.end, acc.end) - max(cand.start, acc.start) + 1)` divided
by the candidate's own length `cand.end - cand.start + 1`. -/
def overlapFracSpec (s1 e1 s2 e2 : ℚ) : ℚ :=
  max 0 (min e1 e2 - max s1 s2 + 1) / (e1 - s1 + 1)

/-- On numeric spans with a positive candidate length, the code's overlap
percentage is the spec's formula. -/
lemma overlap_eq_spec (t a : DRow) (s1 e1 s2 e2 : ℚ)
    (ht1 : t.from_env = some s1) (ht2 : t.to_env = some e1)
    (ha1 : a.from_env = some s2) (ha2 : a.to_env = some e2)
    (hle : s1 ≤ e1) :
    calculate_overlap_percentage t a = overlapFracSpec s1 e1 s2 e2 := by
  have hpos : (0 : ℚ) < e1 - s1 + 1 := by linarith
  unfold calculate_overlap_percentage overlapFracSpec
  rw [ht1, ht2, ha1, ha2]
  simp only [pmax_some, pmin_some, psub, padd, pgt, plt, pdiv, decide_eq_true_eq]
  rw [if_pos hpos, if_neg (ne_of_gt hpos)]
  rfl

lemma append_singleton_ne {α : Type} (l : List α) (x : α) : l ++ [x] ≠ l := by
  intro h
  have := congrArg List.length h
  simp at this

/-! ## Claim C1 -/

/-- C1: a candidate processed by the acceptance loop is left out of the
accepted sequence exactly when some already-accepted interval overlaps at
least `1 - domain_cov_co` of the candidate's own (pre-trim) span, the
fraction being `max(0, min(e1, e2) - max(s1, s2) + 1) / (e1 - s1 + 1)`. -/
theorem claim_c1_reject_iff_threshold (coverage : ℚ) (accepted : List DRow)
    (t : DRow) (s1 e1 : ℚ)
    (ht1 : t.from_env = some s1) (ht2 : t.to_env = some e1) (hle : s1 ≤ e1)
    (hacc : ∀ a ∈ accepted, ∃ s2 e2, a.from_env = some s2 ∧ a.to_env = some e2) :
    accept_step coverage accepted t = accepted ↔
      ∃ a ∈ accepted, ∃ s2 e2, a.from_env = some s2 ∧ a.to_env = some e2 ∧
        1 - coverage ≤ overlapFracSpec s1 e1 s2 e2 := by
  by_cases hall : (accepted.map (calculate_overlap_percentage t)).all
      (fun overlap => overlap < 1 - coverage) = true
  · have hstep : accept_step coverage accepted t ≠ accepted := by
      unfold accept_step
      rw [if_pos hall]
      exact append_singleton_ne _ _
    constructor
    · intro h; exact absurd h hstep
    · rintro ⟨a, ha, s2, e2, hf, ht, hge⟩
      exfalso
      rw [List.all_eq_true] at hall
      have hmem : calculate_overlap_percentage t a ∈
          accepted.map (calculate_overlap_percentage t) :=
        List.mem_map_of_mem _ ha
      have := hall _ hmem
      rw [decide_eq_true_eq] at this
      rw [overlap_eq_spec t a s1 e1 s2 e2 ht1 ht2 hf ht hle] at this
      linarith
  · have hstep : accept_step coverage accepted t = accepted := by
      unfold accept_step
      rw [if_neg hall]
    rw [hstep]
    simp only [true_iff]
    by_contra hno
    push_neg at hno
    apply hall
    rw [List.all_eq_true]
    intro o ho
    rw [List.mem_map] at ho
    obtain ⟨a, ha, rfl⟩ := ho
    obtain ⟨s2, e2, hf, ht⟩ := hacc a ha
    rw [decide_eq_true_eq,
      overlap_eq_spec t a s1 e1 s2 e2 ht1 ht2 hf ht hle]
    have := hno a ha s2 e2 hf ht
    linarith

/-- A concrete row for witnesses: name, span, e-value, protein length. -/
def mkRow (q : String) (f t ie tl : ℚ) : DRow :=
  { target_name := "g", tlen := some tl, query_name := q,
    from_env := some f, to_env := some t, i_Evalue := some ie,
    hmm_cov := some 1, domain_cov := none }

theorem claim_c1_wit :
    ((mkRow "d1" 1 10 0 40).from_env = some 1 ∧
      (mkRow "d1" 1 10 0 40).to_env = some 10) ∧
    (accept_step (1/2) [mkRow "a" 1 8 0 40] (mkRow "d1" 1 10 0 40) =
        [mkRow "a" 1 8 0 40] ↔
      ∃ a ∈ [mkRow "a" 1 8 0 40], ∃ s2 e2, a.from_env = some s2 ∧
        a.to_env = some e2 ∧ 1 - 1/2 ≤ overlapFracSpec 1 10 s2 e2) :=
  ⟨by constructor <;> rfl,
    claim_c1_reject_iff_threshold (1/2) [mkRow "a" 1 8 0 40]
      (mkRow "d1" 1 10 0 40) 1 10 rfl rfl (by norm_num)
      (by intro a ha; exact ⟨1, 8, by rw [List.mem_singleton] at ha; rw [ha]; rfl,
        by rw [List.mem_singleton] at ha; rw [ha]; rfl⟩)⟩

end Dotate

namespace Dotate

/-! ## Claim C2 -/

/-- A point of the protein sequence lying in a row's span. -/
def inSpan (r : DRow) (x : ℚ) : Prop :=
  ∃ f t, r.from_env = some f ∧ r.to_env = some t ∧ f ≤ x ∧ x ≤ t

/-- C2: an accepted candidate (every overlap below the rejection
threshold) is trimmed sequentially against the accepted rows in their
stored order — the appended row carries the span of the fold of
`trim_against` —; each individual trim (taken when the overlap with the
current candidate is positive) clamps the candidate's end to
`acc.start - 1` when the candidate starts before the accepted row, and
otherwise clamps its start to `acc.end + 1`; and after such a trim the
candidate no longer intersects that accepted interval. -/
theorem claim_c2_trim_compose :
    (∀ (coverage : ℚ) (accepted : List DRow) (t : DRow),
      ((accepted.map (calculate_overlap_percentage t)).all
          (fun overlap => overlap < 1 - coverage)) = true →
      accept_step coverage accepted t = accepted ++ [trimmed_row accepted t] ∧
      (trimmed_row accepted t).from_env = (accepted.foldl trim_against t).from_env ∧
      (trimmed_row accepted t).to_env = (accepted.foldl trim_against t).to_env) ∧
    (∀ (t a : DRow) (s1 s2 e2 : ℚ), t.from_env = some s1 →
      a.from_env = some s2 → a.to_env = some e2 →
      0 < calculate_overlap_percentage t a →
      (s1 < s2 → trim_against t a = { t with to_env := some (s2 - 1) }) ∧
      (¬ s1 < s2 → trim_against t a = { t with from_env := some (e2 + 1) })) ∧
    (∀ (t a : DRow) (s2 e2 : ℚ), a.from_env = some s2 → a.to_env = some e2 →
      0 < calculate_overlap_percentage t a →
      ∀ x : ℚ, inSpan (trim_against t a) x → ¬ (s2 ≤ x ∧ x ≤ e2)) := by
  refine ⟨?_, ?_, ?_⟩
  · intro coverage accepted t hall
    refine ⟨?_, rfl, rfl⟩
    unfold accept_step
    rw [if_pos hall]
  · intro t a s1 s2 e2 ht1 ha1 ha2 hpos
    constructor
    · intro hlt
      unfold trim_against
      rw [if_pos hpos, ht1, ha1]
      simp [plt, hlt, psub, ha1]
    · intro hnlt
      unfold trim_against
      rw [if_pos hpos, ht1, ha1]
      simp [plt, hnlt, padd, ha2]
  · intro t a s2 e2 ha1 ha2 hpos x hx
    unfold trim_against at hx
    rw [if_pos hpos] at hx
    rintro ⟨hs2x, hxe2⟩
    by_cases hb : plt t.from_env a.from_env = true
    · rw [if_pos hb] at hx
      obtain ⟨f, tt, hf, htt, hfx, hxt⟩ := hx
      rw [ha1] at htt
      simp only [psub] at htt
      have htt2 : s2 - 1 = tt := Option.some.inj htt
      subst htt2
      linarith
    · rw [if_neg hb] at hx
      obtain ⟨f, tt, hf, htt, hfx, hxt⟩ := hx
      rw [ha2] at hf
      simp only [padd] at hf
      have hf2 : e2 + 1 = f := Option.some.inj hf
      subst hf2
      linarith

theorem claim_c2_wit :
    (accept_step (1/4) [mkRow "a" 1 10 0 40] (mkRow "b" 5 16 0 40) =
        [mkRow "a" 1 10 0 40] ++
          [trimmed_row [mkRow "a" 1 10 0 40] (mkRow "b" 5 16 0 40)] ∧
      (trimmed_row [mkRow "a" 1 10 0 40] (mkRow "b" 5 16 0 40)).from_env =
        ([mkRow "a" 1 10 0 40].foldl trim_against (mkRow "b" 5 16 0 40)).from_env ∧
      (trimmed_row [mkRow "a" 1 10 0 40] (mkRow "b" 5 16 0 40)).to_env =
        ([mkRow "a" 1 10 0 40].foldl trim_against (mkRow "b" 5 16 0 40)).to_env) ∧
    ((5 : ℚ) < 1 → trim_against (mkRow "b" 5 16 0 40) (mkRow "a" 1 10 0 40) =
        { mkRow "b" 5 16 0 40 with to_env := some ((1 : ℚ) - 1) }) ∧
    (¬ (5 : ℚ) < 1 → trim_against (mkRow "b" 5 16 0 40) (mkRow "a" 1 10 0 40) =
        { mkRow "b" 5 16 0 40 with from_env := some ((10 : ℚ) + 1) }) ∧
    (∀ x : ℚ, inSpan (trim_against (mkRow "b" 5 16 0 40) (mkRow "a" 1 10 0 40)) x →
      ¬ ((1 : ℚ) ≤ x ∧ x ≤ 10)) :=
  ⟨claim_c2_trim_compose.1 (1/4) [mkRow "a" 1 10 0 40] (mkRow "b" 5 16 0 40)
      (by norm_num [calculate_overlap_percentage, mkRow, pmax, pmin, plt, pgt,
        padd, psub, pdiv]),
    (claim_c2_trim_compose.2.1 (mkRow "b" 5 16 0 40) (mkRow "a" 1 10 0 40)
      5 1 10 rfl rfl rfl (by norm_num [calculate_overlap_percentage, mkRow,
        pmax, pmin, plt, pgt, padd, psub, pdiv])).1,
    (claim_c2_trim_compose.2.1 (mkRow "b" 5 16 0 40) (mkRow "a" 1 10 0 40)
      5 1 10 rfl rfl rfl (by norm_num [calculate_overlap_percentage, mkRow,
        pmax, pmin, plt, pgt, padd, psub, pdiv])).2,
    claim_c2_trim_compose.2.2 (mkRow "b" 5 16 0 40) (mkRow "a" 1 10 0 40)
      1 10 rfl rfl (by norm_num [calculate_overlap_percentage, mkRow,
        pmax, pmin, plt, pgt, padd, psub, pdiv])⟩

end Dotate

namespace Dotate

/-! ## Claim C5 -/

/-- C5: a nonempty protein group all of whose hit records fail the
filter predicate (non-numeric fields included, since every comparison
against NaN is false) yields exactly one record: label `UNN`, span
`[0, tlen]` with `tlen` the protein length read from the group's first
row. -/
theorem claim_c5_degenerate (df : List RawRow)
    (hmm_cov_co iE_score_co domain_cov_co unanotated_co : ℚ)
    (r0 : RawRow) (rs : List RawRow) (L : ℚ)
    (hdf : df = r0 :: rs)
    (hfail : ∀ r ∈ df, cleanPred hmm_cov_co iE_score_co (coerceRow r) = false)
    (hL : r0.tlen = Cell.num L) :
    (process_gene df hmm_cov_co iE_score_co domain_cov_co unanotated_co).2 =
      [{ target_name := r0.target_name, domain := "UNN", from_env := some 0,
         to_env := some L, i_Evalue := none, hmm_cov := none,
         domain_cov := none }] := by
  subst hdf
  have hfilter : ((r0 :: rs).map coerceRow).filter
      (cleanPred hmm_cov_co iE_score_co) = [] := by
    rw [List.filter_eq_nil_iff]
    intro a ha
    rw [List.mem_map] at ha
    obtain ⟨r, hr, rfl⟩ := ha
    simp [hfail r hr]
  simp only [process_gene, clean_dataframe, hfilter, List.map_nil]
  simp [sortBy, coerceRow, hL, coerceCell, cellVal, List.map_cons]

/-- A concrete record whose `i_Evalue` is far above any sensible cutoff:
it fails the filter. -/
def c5row : RawRow :=
  { target_name := "g", query_name := "d1", rest := "",
    tlen := Cell.num 30, qlen := Cell.num 10, i_Evalue := Cell.num 5,
    from_hmm := Cell.num 1, to_hmm := Cell.num 10,
    from_env := Cell.num 0, to_env := Cell.num 10 }

theorem claim_c5_wit :
    ((∀ r ∈ [c5row], cleanPred (3/4) (1/100) (coerceRow r) = false) ∧
      c5row.tlen = Cell.num 30) ∧
    (process_gene [c5row] (3/4) (1/100) (3/4) 10).2 =
      [{ target_name := c5row.target_name, domain := "UNN", from_env := some 0,
         to_env := some 30, i_Evalue := none, hmm_cov := none,
         domain_cov := none }] := by
  have hfail : ∀ r ∈ [c5row], cleanPred (3/4) (1/100) (coerceRow r) = false := by
    intro r hr
    rw [List.mem_singleton] at hr
    subst hr
    norm_num [cleanPred, coerceRow, coerceCell, cellVal, c5row, plt, pgt,
      padd, psub, pdiv]
  exact ⟨⟨hfail, rfl⟩,
    claim_c5_degenerate _ (3/4) (1/100) (3/4) 10 _ [] 30 rfl hfail rfl⟩

end Dotate

namespace Dotate

/-! ## Claim C6 -/

/-- The interior gap list exactly as the spec words it for claim C6: for
each adjacent pair of the sorted intervals, a record spanning
`[prev.end + 1, next.start - 1]` when that span's length
`(next.start - 1) - (prev.end + 1) + 1` is at least the cutoff.  This is
the claim side of the refinement, to be compared with `interior_gaps`
from the source. -/
def spec_adjacent_gaps (first : DRow) (amino : ℚ) : List DRow → List DRow
  | [] => []
  | [_] => []
  | p :: n :: rest =>
    (if pge (padd (psub (psub n.from_env (some 1)) (padd p.to_env (some 1)))
          (some 1)) (some amino) then
        [add_gap_row first (padd p.to_env (some 1)) (psub n.from_env (some 1))]
      else []) ++ spec_adjacent_gaps first amino (n :: rest)

/-- The spec's span-length arithmetic `(b - 1) - (a + 1) + 1` agrees with
the source's `b - a - 1` on every pandas float (both are NaN together). -/
lemma spec_span_length (b a : PF) :
    padd (psub (psub b (some 1)) (padd a (some 1))) (some 1) =
      psub (psub b a) (some 1) := by
  cases b <;> cases a <;> simp [padd, psub]
  ring

/-- The source's interior-gap loop computes exactly the spec's
adjacent-pair gap list. -/
lemma interior_eq_spec (first : DRow) (amino : ℚ) (prev : DRow)
    (rest : List DRow) :
    interior_gaps first amino prev rest =
      spec_adjacent_gaps first amino (prev :: rest) := by
  induction rest generalizing prev with
  | nil => rfl
  | cons n rest ih =>
    simp only [interior_gaps, spec_adjacent_gaps, spec_span_length, ih]

/-- C6: on the sorted accepted intervals, `add_gap_rows` inserts exactly
the gap records the claim lists: a leading `[0, first.start - 1]` iff
`first.start > unanotated_co`, an interior `[prev.end + 1,
next.start - 1]` per adjacent pair iff that span's length is at least
`unanotated_co`, and a trailing `[last.end + 1, protein_length]` iff
`protein_length - last.end ≥ unanotated_co` — and no others. -/
theorem claim_c6_gap_conditions (df : List DRow) (amino : ℚ) (d0 : DRow)
    (ds : List DRow) (L : ℚ)
    (hs : sort_by_from_env df = d0 :: ds)
    (hL : ((d0 :: ds).getLast (List.cons_ne_nil d0 ds)).tlen = some L) :
    add_gap_rows df amino = sort_by_from_env ((d0 :: ds) ++
      ((if pgt d0.from_env (some amino) then
          [add_gap_row d0 (some 0) (psub d0.from_env (some 1))] else []) ++
        spec_adjacent_gaps d0 amino (d0 :: ds) ++
        (if pge (psub (some L)
              (((d0 :: ds).getLast (List.cons_ne_nil d0 ds)).to_env))
            (some amino) then
          [add_gap_row d0
            (padd (((d0 :: ds).getLast (List.cons_ne_nil d0 ds)).to_env)
              (some 1)) (some L)]
        else []))) := by
  simp only [add_gap_rows, hs]
  rw [← interior_eq_spec, ← hL]

theorem claim_c6_wit :
    add_gap_rows [mkRow "a" 1 10 0 40, mkRow "b" 20 30 0 40] 5 =
      sort_by_from_env (([mkRow "a" 1 10 0 40, mkRow "b" 20 30 0 40]) ++
        ((if pgt (mkRow "a" 1 10 0 40).from_env (some 5) then
            [add_gap_row (mkRow "a" 1 10 0 40) (some 0)
              (psub (mkRow "a" 1 10 0 40).from_env (some 1))] else []) ++
          spec_adjacent_gaps (mkRow "a" 1 10 0 40) 5
            [mkRow "a" 1 10 0 40, mkRow "b" 20 30 0 40] ++
          (if pge (psub (some 40)
                (([mkRow "a" 1 10 0 40, mkRow "b" 20 30 0 40]).getLast
                  (List.cons_ne_nil _ _)).to_env) (some 5) then
            [add_gap_row (mkRow "a" 1 10 0 40)
              (padd (([mkRow "a" 1 10 0 40, mkRow "b" 20 30 0 40]).getLast
                (List.cons_ne_nil _ _)).to_env (some 1)) (some 40)]
          else []))) :=
  claim_c6_gap_conditions [mkRow "a" 1 10 0 40, mkRow "b" 20 30 0 40] 5
    (mkRow "a" 1 10 0 40) [mkRow "b" 20 30 0 40] 40
    (by norm_num [sort_by_from_env, sortBy, insertBy, keyLt, mkRow])
    (by norm_num [List.getLast, mkRow])

end Dotate

namespace Dotate

/-! ## Claim C7 -/

lemma mem_insertBy {α : Type} (lt : α → α → Bool) (x y : α) (l : List α) :
    x ∈ insertBy lt y l ↔ x = y ∨ x ∈ l := by
  induction l with
  | nil => simp [insertBy]
  | cons z zs ih =>
    simp only [insertBy]
    split_ifs with h
    · simp [List.mem_cons]
    · simp only [List.mem_cons, ih]
      tauto

lemma foldl_insertBy_mem {α : Type} (lt : α → α → Bool) (x : α)
    (l acc : List α) :
    x ∈ l.foldl (fun acc y => insertBy lt y acc) acc ↔ x ∈ acc ∨ x ∈ l := by
  induction l generalizing acc with
  | nil => simp
  | cons z zs ih =>
    rw [List.foldl_cons, ih, mem_insertBy]
    simp only [List.mem_cons]
    tauto

/-- The stable insertion sort keeps exactly the input's elements. -/
lemma mem_sortBy {α : Type} (lt : α → α → Bool) (x : α) (l : List α) :
    x ∈ sortBy lt l ↔ x ∈ l := by
  rw [sortBy, foldl_insertBy_mem]
  simp

/-- Every row the interior-gap loop produces is a gap record. -/
lemma interior_gaps_shape (first : DRow) (amino : ℚ) (prev : DRow)
    (rest : List DRow) (r : DRow)
    (hr : r ∈ interior_gaps first amino prev rest) :
    ∃ s e, r = add_gap_row first s e := by
  induction rest generalizing prev with
  | nil => simp [interior_gaps] at hr
  | cons n ns ih =>
    simp only [interior_gaps, List.mem_append] at hr
    rcases hr with hr | hr
    · split_ifs at hr with hc
      · rw [List.mem_singleton] at hr
        exact ⟨_, _, hr⟩
      · simp at hr
    · exact ih n hr

/-- C7 (amended): every row of `add_gap_rows`' result is an input row or
a gap record, and a gap record carries label `UNN` and the value `0` —
not an absent/NaN value — in `i_Evalue`, `hmm_cov` and `domain_cov`
(and in `tlen`). -/
theorem claim_c7_gap_zero_values (df : List DRow) (amino : ℚ) (r : DRow)
    (hr : r ∈ add_gap_rows df amino) :
    r ∈ df ∨ (r.query_name = "UNN" ∧ r.tlen = some 0 ∧ r.i_Evalue = some 0 ∧
      r.hmm_cov = some 0 ∧ r.domain_cov = some 0) := by
  rcases hsort : sort_by_from_env df with _ | ⟨d0, ds⟩
  · simp only [add_gap_rows, hsort] at hr
    simp at hr
  · simp only [add_gap_rows, hsort] at hr
    unfold sort_by_from_env at hr
    rw [mem_sortBy] at hr
    simp only [List.mem_append] at hr
    have hback : r ∈ (d0 :: ds) → r ∈ df := by
      intro hmem
      have hin : r ∈ sort_by_from_env df := by rw [hsort]; exact hmem
      unfold sort_by_from_env at hin
      rwa [mem_sortBy] at hin
    rcases hr with hr0 | (hl | hi) | ht
    · exact Or.inl (hback hr0)
    · right
      split_ifs at hl with hc
      · rw [List.mem_singleton] at hl
        subst hl
        exact ⟨rfl, rfl, rfl, rfl, rfl⟩
      · simp at hl
    · right
      obtain ⟨s, e, rfl⟩ := interior_gaps_shape d0 amino d0 ds r hi
      exact ⟨rfl, rfl, rfl, rfl, rfl⟩
    · right
      split_ifs at ht with hc
      · rw [List.mem_singleton] at ht
        subst ht
        exact ⟨rfl, rfl, rfl, rfl, rfl⟩
      · simp at ht

/-- The accepted record of the C7 scenario. -/
def c7dom : RRow :=
  { target_name := "g", query_name := "d1", from_env := some 0,
    to_env := some 10, i_Evalue := some (1/100000), hmm_cov := some 1,
    domain_cov := some 1 }

/-- The gap record of the C7 scenario, carrying zeros. -/
def c7gap : RRow :=
  { target_name := "g", query_name := "UNN", from_env := some 11,
    to_env := some 30, i_Evalue := some 0, hmm_cov := some 0,
    domain_cov := some 0 }

/-- C7 counterexample: on a one-hit protein of length 30 the pipeline
emits a `UNN` gap record whose `i_Evalue`, `hmm_cov` and `domain_cov` are
the value 0, not absent/NaN as the claim states. -/
theorem claim_c7_cex :
    ∃ r ∈ filter_accepted_rows [mkRow "d1" 0 10 (1/100000) 30] (3/4) 5,
      r.query_name = "UNN" ∧
        ¬ (r.i_Evalue = none ∧ r.hmm_cov = none ∧ r.domain_cov = none) := by
  have heval : filter_accepted_rows [mkRow "d1" 0 10 (1/100000) 30] (3/4) 5 =
      [c7dom, c7gap] := by
    norm_num [c7dom, c7gap, filter_accepted_rows, filter_accepted_preround, accepted_of,
      accept_step, trimmed_row, trim_against, calculate_overlap_percentage,
      add_gap_rows, interior_gaps, add_gap_row, sort_by_from_env, sortBy,
      insertBy, keyLt, pmax, pmin, plt, pgt, ple, pge, padd, psub, pdiv,
      dropTlen, roundRow, roundPF, roundTo3, rhe, mkRow, Int.floor_ofNat,
      Int.floor_zero, Int.floor_one]
  rw [heval]
  exact ⟨c7gap, by simp, rfl, by simp [c7gap]⟩

theorem claim_c7_wit :
    add_gap_row (mkRow "a" 1 10 0 40) (some 11) (some 40) ∈
        add_gap_rows [mkRow "a" 1 10 0 40] 5 ∧
    (add_gap_row (mkRow "a" 1 10 0 40) (some 11) (some 40) ∈
        [mkRow "a" 1 10 0 40] ∨
      ((add_gap_row (mkRow "a" 1 10 0 40) (some 11) (some 40)).query_name =
          "UNN" ∧
        (add_gap_row (mkRow "a" 1 10 0 40) (some 11) (some 40)).tlen = some 0 ∧
        (add_gap_row (mkRow "a" 1 10 0 40) (some 11) (some 40)).i_Evalue =
          some 0 ∧
        (add_gap_row (mkRow "a" 1 10 0 40) (some 11) (some 40)).hmm_cov =
          some 0 ∧
        (add_gap_row (mkRow "a" 1 10 0 40) (some 11) (some 40)).domain_cov =
          some 0)) := by
  have hmem : add_gap_row (mkRow "a" 1 10 0 40) (some 11) (some 40) ∈
      add_gap_rows [mkRow "a" 1 10 0 40] 5 := by
    norm_num [add_gap_rows, interior_gaps, add_gap_row, sort_by_from_env,
      sortBy, insertBy, keyLt, pmax, pmin, plt, pgt, ple, pge, padd, psub,
      mkRow, List.getLast]
  exact ⟨hmem, claim_c7_gap_zero_values [mkRow "a" 1 10 0 40] 5 _ hmem⟩

end Dotate

namespace Dotate

/-! ## Claim C9 -/

/-- The state `process_gene` leaves its input frame in is
`clean_dataframe`'s in-place mutation, whichever branch is taken. -/
lemma process_gene_fst (df : List RawRow) (h e c a : ℚ) :
    (process_gene df h e c a).1 = df.map coerceRow := by
  simp only [process_gene]
  split
  · split <;> rfl
  · rfl

/-- A raw record whose `i_Evalue` column holds a non-numeric string. -/
def c9row : RawRow :=
  { target_name := "g", query_name := "d1", rest := "x",
    tlen := Cell.num 30, qlen := Cell.num 10, i_Evalue := Cell.str "bad",
    from_hmm := Cell.num 1, to_hmm := Cell.num 10,
    from_env := Cell.num 0, to_env := Cell.num 10 }

/-- C9 counterexample: processing a group whose first row carries a
non-numeric `i_Evalue` does not leave the input rows unchanged — the
coercion rewrites the field to NaN in place (and an `hmm_cov` column is
appended, dropped here by `toRawRow` to compare the original columns). -/
theorem claim_c9_cex :
    (process_gene [c9row] (3/4) (1/100) (3/4) 10).1.map MutRow.toRawRow ≠
      [c9row] := by
  rw [process_gene_fst]
  simp [c9row, coerceRow, coerceCell]

/-- Non-numeric-string test on a raw cell. -/
def isStr : Cell → Bool
  | .str _ => true
  | _ => false

lemma coerceCell_eq_self (c : Cell) (h : isStr c = false) : coerceCell c = c := by
  cases c
  · rfl
  · rfl
  · simp [isStr] at h

/-- A raw row none of whose seven numeric cells is a non-numeric
string. -/
def noStrCells (r : RawRow) : Prop :=
  isStr r.tlen = false ∧ isStr r.qlen = false ∧ isStr r.i_Evalue = false ∧
    isStr r.from_hmm = false ∧ isStr r.to_hmm = false ∧
    isStr r.from_env = false ∧ isStr r.to_env = false

/-- C9 (amended): processing a group mutates the input frame in exactly
one way — each row's seven numeric columns are coerced in place
(non-numeric entries become NaN) and a computed `hmm_cov` column is
appended.  Row count and order are preserved, the untouched columns
(`target_name`, `query_name`, the rest of the table) are preserved
verbatim, and a row with no non-numeric entry is left entirely unchanged
apart from the appended column. -/
theorem claim_c9_mutation_shape (df : List RawRow) (h e c a : ℚ) :
    (process_gene df h e c a).1 = df.map coerceRow ∧
    (process_gene df h e c a).1.length = df.length ∧
    (∀ p ∈ df.zip (process_gene df h e c a).1,
      p.2.target_name = p.1.target_name ∧ p.2.query_name = p.1.query_name ∧
        p.2.rest = p.1.rest ∧ (noStrCells p.1 → p.2.toRawRow = p.1)) := by
  refine ⟨process_gene_fst df h e c a, ?_, ?_⟩
  · rw [process_gene_fst]
    simp
  · rw [process_gene_fst]
    have hzip : df.zip (df.map coerceRow) =
        df.map (fun r => (r, coerceRow r)) := by
      induction df with
      | nil => rfl
      | cons x xs ih => simp [ih]
    rw [hzip]
    intro p hp
    rw [List.mem_map] at hp
    obtain ⟨r, hr, rfl⟩ := hp
    refine ⟨rfl, rfl, rfl, ?_⟩
    intro hns
    obtain ⟨h1, h2, h3, h4, h5, h6, h7⟩ := hns
    rcases r with ⟨tn, qn, rst, ctl, cql, cie, cfh, cth, cfe, cte⟩
    simp only [coerceRow] at h1 h2 h3 h4 h5 h6 h7 ⊢
    rw [coerceCell_eq_self _ h1, coerceCell_eq_self _ h2,
      coerceCell_eq_self _ h3, coerceCell_eq_self _ h4,
      coerceCell_eq_self _ h5, coerceCell_eq_self _ h6,
      coerceCell_eq_self _ h7]

end Dotate

namespace Dotate

/-! ## Claim C10 -/

/-- Round-half-to-even lands within half a unit. -/
lemma abs_rhe_sub (x : ℚ) : |(rhe x : ℚ) - x| ≤ 1 / 2 := by
  have hfl : (⌊x⌋ : ℚ) ≤ x := Int.floor_le x
  have hlt : x < ⌊x⌋ + 1 := Int.lt_floor_add_one x
  unfold rhe
  by_cases h1 : x - ⌊x⌋ < 1 / 2
  · rw [if_pos h1, abs_sub_comm, abs_of_nonneg (by linarith)]
    linarith
  · rw [if_neg h1]
    by_cases h2 : (1 : ℚ) / 2 < x - ⌊x⌋
    · rw [if_pos h2]
      push_cast
      rw [abs_of_nonneg (by linarith)]
      linarith
    · rw [if_neg h2]
      have hr : x - ⌊x⌋ = 1 / 2 := le_antisymm (not_lt.mp h2) (not_lt.mp h1)
      by_cases h3 : ⌊x⌋ % 2 = 0
      · rw [if_pos h3, abs_sub_comm, abs_of_nonneg (by linarith)]
        linarith
      · rw [if_neg h3]
        push_cast
        rw [abs_of_nonneg (by linarith)]
        linarith

/-- Rounding at three decimals moves a value by at most `1/2000`. -/
lemma roundTo3_close (q : ℚ) : |roundTo3 q - q| ≤ 1 / 2000 := by
  have h := abs_rhe_sub (1000 * q)
  rw [roundTo3]
  have heq : (rhe (1000 * q) : ℚ) / 1000 - q =
      ((rhe (1000 * q) : ℚ) - 1000 * q) / 1000 := by ring
  rw [heq, abs_div, abs_of_pos (by norm_num : (0 : ℚ) < 1000)]
  have h2 : |(rhe (1000 * q) : ℚ) - 1000 * q| / 1000 ≤ (1 / 2) / 1000 :=
    (div_le_div_iff_of_pos_right (by norm_num)).mpr h
  linarith

/-- A rounded value is an integer number of thousandths. -/
lemma roundTo3_thousandth (q : ℚ) : ∃ n : ℤ, roundTo3 q = (n : ℚ) / 1000 :=
  ⟨rhe (1000 * q), rfl⟩

/-- C10: in the non-degenerate path, every returned row is the rounding
of the corresponding pre-rounding row: its `hmm_cov` and `domain_cov`
are the three-decimal roundings of the exact computed ratios — integer
thousandths within `1/2000` of the exact values. -/
theorem claim_c10_rounding (df : List DRow) (coverage amino : ℚ) (r : RRow)
    (hr : r ∈ filter_accepted_rows df coverage amino) :
    ∃ r0 ∈ filter_accepted_preround df coverage amino, r = roundRow r0 ∧
      (∀ q, r0.hmm_cov = some q → r.hmm_cov = some (roundTo3 q) ∧
        |roundTo3 q - q| ≤ 1 / 2000 ∧ ∃ n : ℤ, roundTo3 q = (n : ℚ) / 1000) ∧
      (∀ q, r0.domain_cov = some q → r.domain_cov = some (roundTo3 q) ∧
        |roundTo3 q - q| ≤ 1 / 2000 ∧ ∃ n : ℤ, roundTo3 q = (n : ℚ) / 1000) := by
  unfold filter_accepted_rows at hr
  rw [List.mem_map] at hr
  obtain ⟨r0, hr0, rfl⟩ := hr
  refine ⟨r0, hr0, rfl, ?_, ?_⟩
  · intro q hq
    exact ⟨by simp [roundRow, roundPF, hq], roundTo3_close q,
      roundTo3_thousandth q⟩
  · intro q hq
    exact ⟨by simp [roundRow, roundPF, hq], roundTo3_close q,
      roundTo3_thousandth q⟩

/-- The accepted record of the C10 scenario, as returned. -/
def c10row : RRow :=
  { target_name := "g", query_name := "d9", from_env := some 2,
    to_env := some 13, i_Evalue := some (1 / 100000), hmm_cov := some 1,
    domain_cov := some 1 }

theorem claim_c10_wit :
    ∃ r0 ∈ filter_accepted_preround [mkRow "d9" 2 13 (1 / 100000) 50] (1 / 2) 4,
      c10row = roundRow r0 ∧
      (∀ q, r0.hmm_cov = some q → c10row.hmm_cov = some (roundTo3 q) ∧
        |roundTo3 q - q| ≤ 1 / 2000 ∧ ∃ n : ℤ, roundTo3 q = (n : ℚ) / 1000) ∧
      (∀ q, r0.domain_cov = some q → c10row.domain_cov = some (roundTo3 q) ∧
        |roundTo3 q - q| ≤ 1 / 2000 ∧ ∃ n : ℤ, roundTo3 q = (n : ℚ) / 1000) :=
  claim_c10_rounding [mkRow "d9" 2 13 (1 / 100000) 50] (1 / 2) 4 c10row (by
    norm_num [c10row, filter_accepted_rows, filter_accepted_preround,
      accepted_of, accept_step, trimmed_row, trim_against,
      calculate_overlap_percentage, add_gap_rows, interior_gaps, add_gap_row,
      sort_by_from_env, sortBy, insertBy, keyLt, pmax, pmin, plt, pgt, ple,
      pge, padd, psub, pdiv, dropTlen, roundRow, roundPF, roundTo3, rhe,
      mkRow, Int.floor_ofNat, Int.floor_zero, Int.floor_one])

end Dotate

namespace Dotate

/-! ## Claims C4 and C8: the collapse defect, evaluated -/

/-- A point of the protein sequence lying in a result row's span. -/
def inSpanR (r : RRow) (x : ℚ) : Prop :=
  ∃ f t, r.from_env = some f ∧ r.to_env = some t ∧ f ≤ x ∧ x ≤ t

/-- Three filtered hits, in ascending e-value order: `d1 = [1,10]`,
`d2 = [11,20]`, and `d3 = [5,16]`, which overlaps both by half its
length.  With `domain_cov_co = 1/4` the candidate `d3` passes the
rejection test but the two sequential trims collapse it to `[21,16]`. -/
def exampleC4 : List DRow :=
  [mkRow "d1" 1 10 (1/1000000) 40, mkRow "d2" 11 20 (1/100000) 40,
   mkRow "d3" 5 16 (1/10000) 40]

def c4d1 : RRow :=
  { target_name := "g", query_name := "d1", from_env := some 1,
    to_env := some 10, i_Evalue := some (1/1000000), hmm_cov := some 1,
    domain_cov := some 1 }

def c4d2 : RRow :=
  { target_name := "g", query_name := "d2", from_env := some 11,
    to_env := some 20, i_Evalue := some (1/100000), hmm_cov := some 1,
    domain_cov := some 1 }

def c4gap : RRow :=
  { target_name := "g", query_name := "UNN", from_env := some 17,
    to_env := some 40, i_Evalue := some 0, hmm_cov := some 0,
    domain_cov := some 0 }

def c4d3 : RRow :=
  { target_name := "g", query_name := "d3", from_env := some 21,
    to_env := some 16, i_Evalue := some (1/10000), hmm_cov := some 1,
    domain_cov := some (-(333/1000)) }

/-- C4, evaluated at the failing input: the result of
`filter_accepted_rows` on `exampleC4` holds two distinct records — the
`UNN` gap `[17, 40]` and the accepted domain `d2 = [11, 20]` — that both
contain residue 17, so the output is not a non-overlapping partition. -/
theorem claim_c4_overlap_violation :
    ∃ r1 ∈ filter_accepted_rows exampleC4 (1/4) 5,
      ∃ r2 ∈ filter_accepted_rows exampleC4 (1/4) 5,
        r1 ≠ r2 ∧ r1.query_name = "UNN" ∧ inSpanR r1 17 ∧ inSpanR r2 17 := by
  have heval : filter_accepted_rows exampleC4 (1/4) 5 =
      [c4d1, c4d2, c4gap, c4d3] := by
    norm_num [exampleC4, c4d1, c4d2, c4gap, c4d3, filter_accepted_rows,
      filter_accepted_preround, accepted_of, accept_step, trimmed_row,
      trim_against, calculate_overlap_percentage, add_gap_rows,
      interior_gaps, add_gap_row, sort_by_from_env, sortBy, insertBy, keyLt,
      pmax, pmin, plt, pgt, ple, pge, padd, psub, pdiv, dropTlen, roundRow,
      roundPF, roundTo3, rhe, mkRow, Int.floor_ofNat, Int.floor_zero,
      Int.floor_one]
  rw [heval]
  refine ⟨c4gap, by simp, c4d2, by simp, ?_, rfl, ?_, ?_⟩
  · intro hcontra
    have := congrArg RRow.query_name hcontra
    simp [c4gap, c4d2] at this
  · exact ⟨17, 40, rfl, rfl, le_refl _, by norm_num⟩
  · exact ⟨11, 20, rfl, rfl, by norm_num, by norm_num⟩

/-- Three filtered hits `d1 = [2,11]`, `d2 = [12,21]`, `d3 = [6,17]`
with `domain_cov_co = 1/4`: `d3` is accepted and collapses to `[22,17]`,
so its recorded `domain_cov` is `(17 - 22 + 1)/12 = -1/3`. -/
def exampleC8 : List DRow :=
  [mkRow "d1" 2 11 (1/1000000) 41, mkRow "d2" 12 21 (1/100000) 41,
   mkRow "d3" 6 17 (1/10000) 41]

def c8d1 : RRow :=
  { target_name := "g", query_name := "d1", from_env := some 2,
    to_env := some 11, i_Evalue := some (1/1000000), hmm_cov := some 1,
    domain_cov := some 1 }

def c8d2 : RRow :=
  { target_name := "g", query_name := "d2", from_env := some 12,
    to_env := some 21, i_Evalue := some (1/100000), hmm_cov := some 1,
    domain_cov := some 1 }

def c8gap : RRow :=
  { target_name := "g", query_name := "UNN", from_env := some 18,
    to_env := some 41, i_Evalue := some 0, hmm_cov := some 0,
    domain_cov := some 0 }

def c8d3 : RRow :=
  { target_name := "g", query_name := "d3", from_env := some 22,
    to_env := some 17, i_Evalue := some (1/10000), hmm_cov := some 1,
    domain_cov := some (-(333/1000)) }

/-- C8, evaluated at the failing input: the pipeline emits the non-gap
record `d3` with `domain_cov = -0.333` (the rounding of `-1/3`), which
is not in `(0, 1]`. -/
theorem claim_c8_negative_coverage :
    (∃ r ∈ filter_accepted_rows exampleC8 (1/4) 5, r.query_name = "d3" ∧
      r.domain_cov = some (-(333/1000))) ∧ ¬ ((0 : ℚ) < -(333/1000)) := by
  constructor
  · have heval : filter_accepted_rows exampleC8 (1/4) 5 =
        [c8d1, c8d2, c8gap, c8d3] := by
      norm_num [exampleC8, c8d1, c8d2, c8gap, c8d3, filter_accepted_rows,
        filter_accepted_preround, accepted_of, accept_step, trimmed_row,
        trim_against, calculate_overlap_percentage, add_gap_rows,
        interior_gaps, add_gap_row, sort_by_from_env, sortBy, insertBy,
        keyLt, pmax, pmin, plt, pgt, ple, pge, padd, psub, pdiv, dropTlen,
        roundRow, roundPF, roundTo3, rhe, mkRow, Int.floor_ofNat,
        Int.floor_zero, Int.floor_one]
    rw [heval]
    exact ⟨c8d3, by simp, rfl, rfl⟩
  · norm_num

end Dotate
